import Mathlib

/-!
Verification of the calendar-to-chat-status script: a shallow embedding of
its event-cleaning, timestamp-parsing and window-evaluation functions,
together with theorems checking the specification's claims about them.

Python dictionaries are modelled as insertion-ordered association lists,
Python exceptions as `Except String`, and the numeric values involved
(float minutes, second differences) as exact rationals.
-/

namespace GCal

/-- A Python value as it occurs in the calendar-event dictionaries:
strings, booleans, dictionaries (insertion-ordered) and lists. -/
inductive PyVal : Type where
  | str (s : String)
  | bool (b : Bool)
  | dict (entries : List (String × PyVal))
  | list (items : List PyVal)

abbrev PyDict := List (String × PyVal)

/-- Python truthiness (`bool(v)`) for the value shapes above. -/
def PyVal.truthy : PyVal → Bool
  | .str s => !(s == "")
  | .bool b => b
  | .dict entries => !entries.isEmpty
  | .list items => !items.isEmpty

/-- `d.get(k, default)`: the value of the first binding of `k`, else the default. -/
def dictGetD (d : PyDict) (k : String) (dflt : PyVal) : PyVal :=
  match d.find? (fun e => e.1 == k) with
  | some e => e.2
  | none => dflt

def hasKey (d : PyDict) (k : String) : Bool :=
  (d.find? (fun e => e.1 == k)).isSome

/-- `d[k]`: raises `KeyError` when the key is absent. -/
def dictGetItem (d : PyDict) (k : String) : Except String PyVal :=
  match d.find? (fun e => e.1 == k) with
  | some e => .ok e.2
  | none => .error ("KeyError: " ++ k)

/-- `d[k] = v`: replace the value in place when the key exists, else append. -/
def dictSet (d : PyDict) (k : String) (v : PyVal) : PyDict :=
  if hasKey d k then d.map (fun e => if e.1 == k then (e.1, v) else e)
  else d ++ [(k, v)]

/-- `del d[k]`: raises `KeyError` when the key is absent. -/
def dictDel (d : PyDict) (k : String) : Except String PyDict :=
  if hasKey d k then .ok (d.filter (fun e => !(e.1 == k)))
  else .error ("KeyError: " ++ k)

/-- `v == lit` for a string literal `lit`: true exactly when `v` is that
string (Python equality against a string never raises). -/
def pyEqStr (v : PyVal) (lit : String) : Bool :=
  match v with
  | .str s => s == lit
  | _ => false

/-- `v.get(k, default)`: `AttributeError` when `v` is not a dictionary. -/
def pyGetD (v : PyVal) (k : String) (dflt : PyVal) : Except String PyVal :=
  match v with
  | .dict entries => .ok (dictGetD entries k dflt)
  | _ => .error "AttributeError: object has no attribute get"

/-- The `Union[tuple, str]` key argument of `read_value`. -/
inductive PyKey : Type where
  | s (k : String)
  | t (ks : List String)

/-- The source's `read_value` after a `str` key has been wrapped into a
length-one tuple: recursive nested lookup with default `''` at the last key
and `{}` at intermediate keys. Indexing `key[0]` of an empty tuple raises
`IndexError`, and `.get` on a non-dictionary intermediate value raises
`AttributeError`. -/
def readValueT (d : PyVal) : List String → Except String PyVal
  | [] => .error "IndexError: tuple index out of range"
  | [k] => pyGetD d k (.str "")
  | k :: k2 :: ks => do
      let v ← pyGetD d k (.dict [])
      readValueT v (k2 :: ks)

/-- `read_value(d, key)` from the source. -/
def read_value (d : PyVal) (key : PyKey) : Except String PyVal :=
  match key with
  | .s k => readValueT d [k]
  | .t ks => readValueT d ks

/-- `get_key(keyname)`: the string itself, or the first element of the
tuple (the source's `keyname[0]`; never called on an empty tuple). -/
def get_key (keyname : PyKey) : String :=
  match keyname with
  | .s k => k
  | .t ks => ks.headD ""

/-- Iterating a Python value (`for aa in v`): a list yields its items, a
string its characters, a dictionary its keys; booleans are not iterable. -/
def pyIter : PyVal → Except String (List PyVal)
  | .list items => .ok items
  | .str s => .ok (s.data.map (fun c => .str (String.mk [c])))
  | .dict entries => .ok (entries.map (fun e => .str e.1))
  | .bool _ => .error "TypeError: bool object is not iterable"

/-- The list comprehension inside `get_my_response_status`:
`[aa.get(response_key, '') for aa in items if aa.get('self', False)]`,
evaluated left to right; `aa.get` raises when `aa` is not a dictionary. -/
def selfResponses (response_key : String) : List PyVal → Except String (List PyVal)
  | [] => .ok []
  | aa :: rest => do
      let isSelf ← pyGetD aa "self" (.bool false)
      if isSelf.truthy then
        let r ← pyGetD aa response_key (.str "")
        let tail ← selfResponses response_key rest
        .ok (r :: tail)
      else
        selfResponses response_key rest

/-- `get_my_response_status(event, attendees_key, response_key)`: first
element of the comprehension above; `IndexError` when it is empty. -/
def get_my_response_status (event : PyDict) (attendees_key response_key : String) :
    Except String PyVal := do
  let att ← dictGetItem event attendees_key
  let items ← pyIter att
  let rs ← selfResponses response_key items
  match rs with
  | r :: _ => .ok r
  | [] => .error "IndexError: list index out of range"

def DEFAULT_STATUS : String := "busy"

/-- The default `keys` argument of `clean_events` (the only value it is
ever called with in the repository). -/
def cleanKeys : List PyKey :=
  [.s "summary", .t ["start", "dateTime"], .t ["end", "dateTime"],
   .s "status", .s "transparency", .s "visibility", .s "attendees"]

/-- The dict comprehension `{get_key(kk): read_value(ee, kk) for kk in keys}`,
built left to right into the accumulator. -/
def buildClean (ee : PyDict) : List PyKey → PyDict → Except String PyDict
  | [], acc => .ok acc
  | kk :: rest, acc => do
      let v ← read_value (.dict ee) kk
      buildClean ee rest (dictSet acc (get_key kk) v)

/-- The body of the `for ee in events` loop of `clean_events`: `none` means
the event was skipped by a `continue`, `some` gives the record appended to
the output. The transparency/confirmation test short-circuits, so
`ee['status']` is read only when the transparency test is false. -/
def cleanEventStep (ee : PyDict) : Except String (Option PyDict) := do
  if pyEqStr (dictGetD ee "transparency" (.str "")) "transparent" then
    return none
  let status ← dictGetItem ee "status"
  if !(pyEqStr status "confirmed") then
    return none
  let eeClean ← buildClean ee cleanKeys []
  let myStatus ← get_my_response_status eeClean "attendees" "responseStatus"
  if !(pyEqStr myStatus "accepted") then
    return none
  let eeClean := dictSet eeClean "responseStatus" myStatus
  let eeClean ← dictDel eeClean "attendees"
  let eeClean :=
    if pyEqStr (dictGetD eeClean "visibility" (.str "")) "private" then
      dictSet eeClean "summary" (.str DEFAULT_STATUS)
    else eeClean
  return (some eeClean)

/-- `clean_events(events)` with the default `keys`. -/
def clean_events : List PyDict → Except String (List PyDict)
  | [] => .ok []
  | ee :: rest => do
      let r ← cleanEventStep ee
      let tail ← clean_events rest
      match r with
      | none => .ok tail
      | some c => .ok (c :: tail)

/-! ## Datetimes

A Python `datetime` is modelled by its proleptic-Gregorian calendar fields
plus an optional fixed UTC offset in seconds (`none` = naive, `some 0` =
UTC). Aware datetimes compare and subtract through their absolute instant
(wall clock minus offset); mixing naive and aware raises `TypeError`. -/

/-- A Python `datetime` value. -/
structure PyDateTime : Type where
  year : ℤ
  month : ℕ
  day : ℕ
  hour : ℕ
  minute : ℕ
  second : ℕ
  microsecond : ℕ
  tz : Option ℤ
deriving DecidableEq

/-- Days since 1970-01-01 of a proleptic-Gregorian civil date (the
`days_from_civil` algorithm, with floor division for the era). -/
def daysFromCivil (y : ℤ) (m d : ℕ) : ℤ :=
  let yy : ℤ := if m ≤ 2 then y - 1 else y
  let era : ℤ := Int.fdiv yy 400
  let yoe : ℤ := yy - era * 400
  let mp : ℤ := if 2 < m then (m : ℤ) - 3 else (m : ℤ) + 9
  let doy : ℤ := (153 * mp + 2) / 5 + (d : ℤ) - 1
  let doe : ℤ := yoe * 365 + yoe / 4 - yoe / 100 + doy
  era * 146097 + (doe - 719468)

/-- Wall-clock microseconds since the epoch, ignoring the timezone. -/
def PyDateTime.wallMicros (dt : PyDateTime) : ℤ :=
  (daysFromCivil dt.year dt.month dt.day * 86400
    + (dt.hour : ℤ) * 3600 + (dt.minute : ℤ) * 60 + (dt.second : ℤ)) * 1000000
    + (dt.microsecond : ℤ)

/-- Absolute microseconds since the epoch of an aware datetime: wall clock
minus UTC offset. (Only used on aware datetimes, where `tz = some offset`.) -/
def PyDateTime.absMicros (dt : PyDateTime) : ℤ :=
  dt.wallMicros - dt.tz.getD 0 * 1000000

/-- `a <= b` on datetimes: aware pairs compare absolute instants, naive
pairs wall clocks, mixed pairs raise `TypeError`. -/
def pyLe (a b : PyDateTime) : Except String Bool :=
  match a.tz, b.tz with
  | some _, some _ => .ok (decide (a.absMicros ≤ b.absMicros))
  | none, none => .ok (decide (a.wallMicros ≤ b.wallMicros))
  | _, _ => .error "TypeError: cannot compare offset-naive and offset-aware datetimes"

/-- `(a - b).total_seconds()` as an exact rational; mixed naive/aware
subtraction raises `TypeError`. -/
def pySubSeconds (a b : PyDateTime) : Except String ℚ :=
  match a.tz, b.tz with
  | some _, some _ => .ok (((a.absMicros - b.absMicros : ℤ) : ℚ) / 1000000)
  | none, none => .ok (((a.wallMicros - b.wallMicros : ℤ) : ℚ) / 1000000)
  | _, _ => .error "TypeError: cannot subtract offset-naive and offset-aware datetimes"

/-! ## Timestamp parsing (`strptime`) -/

/-- `c` as a decimal digit (`none` when `c` is not one of `0`-`9`). -/
def charDigit (c : Char) : Option ℕ :=
  if c.isDigit then some (c.toNat - 48) else none

/-- Two digit characters as a number. -/
def digits2 (a b : Char) : Option ℕ := do
  let x ← charDigit a
  let y ← charDigit b
  some (10 * x + y)

/-- Four digit characters as a number. -/
def digits4 (a b c d : Char) : Option ℕ := do
  let x ← digits2 a b
  let y ← digits2 c d
  some (100 * x + y)

/-- Greedily take at most `n` leading digits. -/
def takeDigits : ℕ → List Char → (List ℕ × List Char)
  | 0, cs => ([], cs)
  | _ + 1, [] => ([], [])
  | n + 1, c :: cs =>
      match charDigit c with
      | some d =>
          let p := takeDigits n cs
          (d :: p.1, p.2)
      | none => ([], c :: cs)

/-- The `%f` fraction: one to six digits, right-padded to microseconds. -/
def fracValue (ds : List ℕ) : ℕ :=
  ds.foldl (fun a d => 10 * a + d) 0 * 10 ^ (6 - ds.length)

def isLeapYear (y : ℤ) : Bool :=
  y % 4 == 0 && (y % 100 != 0 || y % 400 == 0)

def daysInMonth (y : ℤ) (m : ℕ) : ℕ :=
  if m == 2 then (if isLeapYear y then 29 else 28)
  else if m == 4 || m == 6 || m == 9 || m == 11 then 30
  else 31

/-- The range checks of `datetime.strptime` and the `datetime` constructor:
years 1-9999, real calendar day, hour below 24, minute and second below 60. -/
def validDate (y mo d h mi s : ℕ) : Bool :=
  1 ≤ y && y ≤ 9999 && 1 ≤ mo && mo ≤ 12 && 1 ≤ d && d ≤ daysInMonth (y : ℤ) mo
    && h ≤ 23 && mi ≤ 59 && s ≤ 59

/-- The `.%f` part of the format: when `frac`, demand a literal dot and
one to six digits (greedy); otherwise pass the tail through. -/
def parseFrac (frac : Bool) (rest : List Char) : Option (ℕ × List Char) :=
  if frac then
    match rest with
    | '.' :: cs2 =>
      match takeDigits 6 cs2 with
      | ([], _) => none
      | (ds, r) => some (fracValue ds, r)
    | _ => none
  else some (0, rest)

/-- The suffix of the format: a literal `Z` when `z` (leaving the datetime
naive; the caller attaches UTC), a `±HHMM` offset (`%z`) when `off` — whose
magnitude must stay below 24 hours — and otherwise end of input. -/
def parseTz (z off : Bool) (rest2 : List Char) : Option (Option ℤ) :=
  if z then
    match rest2 with
    | ['Z'] => some none
    | _ => none
  else if off then
    match rest2 with
    | [sg, o1, o2, o3, o4] =>
      match digits2 o1 o2, digits2 o3 o4 with
      | some oh, some om =>
        if (sg == '+' || sg == '-') && oh * 3600 + om * 60 < 86400 then
          some (some (if sg == '-' then -((oh : ℤ) * 3600 + (om : ℤ) * 60)
                      else (oh : ℤ) * 3600 + (om : ℤ) * 60))
        else none
      | _, _ => none
    | _ => none
  else
    match rest2 with
    | [] => some none
    | _ => none

/-- `datetime.strptime(s, fmt)` for the formats the script builds:
`%Y-%m-%dT%H:%M:%S`, plus `.%f` when `frac`, then a literal `Z` when `z`
or a `%z` offset when `off`, on the zero-padded strings the calendar API
produces; `none` when the string does not match the format or the fields
are out of range. -/
def parseCore (frac z off : Bool) (cs : List Char) : Option PyDateTime :=
  match cs with
  | y1 :: y2 :: y3 :: y4 :: '-' :: m1 :: m2 :: '-' :: d1 :: d2 :: 'T' ::
      h1 :: h2 :: ':' :: n1 :: n2 :: ':' :: s1 :: s2 :: rest =>
    match digits4 y1 y2 y3 y4, digits2 m1 m2, digits2 d1 d2,
        digits2 h1 h2, digits2 n1 n2, digits2 s1 s2 with
    | some y, some mo, some d, some h, some mi, some s =>
      match parseFrac frac rest with
      | none => none
      | some (us, rest2) =>
        match parseTz z off rest2 with
        | none => none
        | some tzo =>
          if validDate y mo d h mi s then
            some ⟨(y : ℤ), mo, d, h, mi, s, us, tzo⟩
          else none
    | _, _, _, _, _, _ => none
  | _ => none

/-- The last `n` characters, `s[-n:]` (the whole string when it is shorter). -/
def lastN (cs : List Char) (n : ℕ) : List Char := cs.drop (cs.length - n)

/-- `re.match` of `[+-][0-9][0-9]:[0-9][0-9]` against the final six
characters (a match at the beginning; shorter inputs cannot match). -/
def offsetSuffixMatch (cs : List Char) : Bool :=
  match cs with
  | sg :: a :: b :: c :: d :: e :: _ =>
      (sg == '+' || sg == '-') && a.isDigit && b.isDigit && (c == ':')
        && d.isDigit && e.isDigit
  | _ => false

/-- `strptime(str_time)` from the source: a `.` at index 19 (of a string of
length at least 20) turns on fractional parsing; a trailing `Z` turns on the
`Z` format and makes the result UTC; otherwise a trailing `±HH:MM` (matched
on the final six characters) turns on `%z` after stripping the colon from
the suffix. The empty string raises `IndexError` at `str_time[-1]`. -/
def strptime (str_time : String) : Except String PyDateTime :=
  let cs := str_time.data
  let frac := decide (cs.length ≥ 20) && cs.get? 19 == some '.'
  match cs.getLast? with
  | none => .error "IndexError: string index out of range"
  | some lastc =>
    if lastc == 'Z' then
      match parseCore frac true false cs with
      | some dt => .ok { dt with tz := some 0 }
      | none => .error "ValueError: time data does not match format"
    else if offsetSuffixMatch (lastN cs 6) then
      let stripped := cs.take (cs.length - 6) ++ (lastN cs 6).filter (fun c => !(c == ':'))
      match parseCore frac false true stripped with
      | some dt => .ok dt
      | none => .error "ValueError: time data does not match format"
    else
      match parseCore frac false false cs with
      | some dt => .ok dt
      | none => .error "ValueError: time data does not match format"

/-! ## Window evaluation (`is_within_next_event`) -/

def MINUTES_BEFORE : ℚ := 5

/-- `strptime`'s argument must be a string (`TypeError` otherwise). -/
def pyStrArg (v : PyVal) : Except String String :=
  match v with
  | .str s => .ok s
  | _ => .error "TypeError: strptime argument must be str"

/-- `is_within_next_event(now, next_event, minutes_before)`: the assert on
`minutes_before` first, then the truthiness test on the event dictionary,
then parsing of `start` and `end`, then the window condition with Python's
short-circuit evaluation (the subtraction is evaluated before the
`start <= now` comparison, which is skipped when the first disjunct is
true). Failures are `Except.error`. -/
def is_within_next_event (now : PyDateTime) (next_event : PyDict)
    (minutes_before : ℚ) : Except String Bool := do
  if minutes_before < 0 then
    throw "AssertionError: `minutes_before` must be a non-negative number."
  if (PyVal.dict next_event).truthy then
    let startv ← dictGetItem next_event "start"
    let starts ← pyStrArg startv
    let start_dt ← strptime starts
    let endv ← dictGetItem next_event "end"
    let ends ← pyStrArg endv
    let end_dt ← strptime ends
    let diff ← pySubSeconds start_dt now
    let c12 ← if decide (diff ≤ minutes_before * 60) then pure true
              else pyLe start_dt now
    if c12 then
      let c3 ← pyLe now end_dt
      if c3 then
        return true
  return false

/-- The `attendees`-extraction step applied directly to the raw event
(`clean_events` performs it on the cleaned record, whose `attendees` value
is `ee.get('attendees', '')`). -/
def rawSelfResponse (ee : PyDict) : Except String PyVal := do
  let items ← pyIter (dictGetD ee "attendees" (.str ""))
  let rs ← selfResponses "responseStatus" items
  match rs with
  | r :: _ => .ok r
  | [] => .error "IndexError: list index out of range"

/-- The record the comprehension builds, in terms of the raw event and the
two nested reads. -/
def builtRecord (ee : PyDict) (vs ve : PyVal) : PyDict :=
  [("summary", dictGetD ee "summary" (.str "")),
   ("start", vs), ("end", ve),
   ("status", dictGetD ee "status" (.str "")),
   ("transparency", dictGetD ee "transparency" (.str "")),
   ("visibility", dictGetD ee "visibility" (.str "")),
   ("attendees", dictGetD ee "attendees" (.str ""))]

/-- The final record of a kept event, before knowing that `ms` is
`accepted`: summary possibly replaced, `responseStatus` appended,
`attendees` removed. -/
def keptRecord (ee : PyDict) (vs ve ms : PyVal) : PyDict :=
  [("summary",
      if pyEqStr (dictGetD ee "visibility" (.str "")) "private" then
        .str DEFAULT_STATUS
      else dictGetD ee "summary" (.str "")),
   ("start", vs), ("end", ve),
   ("status", dictGetD ee "status" (.str "")),
   ("transparency", dictGetD ee "transparency" (.str "")),
   ("visibility", dictGetD ee "visibility" (.str "")),
   ("responseStatus", ms)]

/-! ## Specification-side definitions

These definitions follow the specification's words (section 3 "Raw Event"
and section 4.1), for comparison against the code-derived `clean_events`. -/

/-- Is the value a dictionary? -/
def isDictVal : PyVal → Bool
  | .dict _ => true
  | _ => false

/-- The self responses of an attendee list of dictionaries, in order:
`responseStatus` (default `''`) of every attendee whose `self` is truthy. -/
def selfResponsesSpec : List PyVal → List PyVal
  | [] => []
  | .dict m :: rest =>
      if (dictGetD m "self" (.bool false)).truthy then
        dictGetD m "responseStatus" (.str "") :: selfResponsesSpec rest
      else selfResponsesSpec rest
  | _ :: rest => selfResponsesSpec rest

/-- The extracted self response of a raw event: the first self-attendee's
`responseStatus` (meaningful under `attendeesWF`). -/
def specSelfResponse (ee : PyDict) : PyVal :=
  match dictGetD ee "attendees" (.str "") with
  | .list l => (selfResponsesSpec l).headD (.str "")
  | _ => .str ""

/-- The nested `k.dateTime` field of a raw event, read with empty-string
default, per the specification's path lookup. -/
def specNested (ee : PyDict) (k : String) : PyVal :=
  match dictGetD ee k (.dict []) with
  | .dict m => dictGetD m "dateTime" (.str "")
  | _ => .str ""

/-- The busy and confirmation filters (the first two filters of §4.1). -/
def survivesFirstTwo (ee : PyDict) : Bool :=
  !(pyEqStr (dictGetD ee "transparency" (.str "")) "transparent")
    && pyEqStr (dictGetD ee "status" (.str "")) "confirmed"

/-- Well-formed `attendees` per the Raw Event data model, with a
self-attendee present: a list of attendee dictionaries at least one of
which has a truthy `self`. -/
def attendeesWF (ee : PyDict) : Bool :=
  match dictGetD ee "attendees" (.str "") with
  | .list l => l.all isDictVal && !(selfResponsesSpec l).isEmpty
  | _ => false

/-- A Raw Event per §3, under the hypotheses of claim C2: it has a `status`
key, and — whenever it survives the first two filters — its `start`/`end`
fields (when present) are nested mappings and it carries a self-attendee. -/
def RawEventWF (ee : PyDict) : Bool :=
  hasKey ee "status"
    && (!(survivesFirstTwo ee)
        || (isDictVal (dictGetD ee "start" (.dict []))
            && isDictVal (dictGetD ee "end" (.dict []))
            && attendeesWF ee))

/-- The specification's keep condition: not transparent, confirmed, and the
extracted self response equals exactly `accepted`. -/
def specKeep (ee : PyDict) : Bool :=
  survivesFirstTwo ee && pyEqStr (specSelfResponse ee) "accepted"

/-- The specification's Canonical Event for a kept raw event. -/
def specCanonical (ee : PyDict) : PyDict :=
  [("summary",
      if pyEqStr (dictGetD ee "visibility" (.str "")) "private" then
        .str DEFAULT_STATUS
      else dictGetD ee "summary" (.str "")),
   ("start", specNested ee "start"), ("end", specNested ee "end"),
   ("status", dictGetD ee "status" (.str "")),
   ("transparency", dictGetD ee "transparency" (.str "")),
   ("visibility", dictGetD ee "visibility" (.str "")),
   ("responseStatus", specSelfResponse ee)]

/-! ## Claims about `clean_events` -/

/-- Example raw events for the witnesses. -/
def exEvent : PyDict :=
  [("summary", .str "Team Sync"),
   ("start", .dict [("dateTime", .str "2019-02-21T10:30:00-03:00")]),
   ("end", .dict [("dateTime", .str "2019-02-21T11:00:00-03:00")]),
   ("status", .str "confirmed"),
   ("visibility", .str "public"),
   ("attendees", .list [.dict [("self", .bool true), ("responseStatus", .str "accepted")]])]

def exTransparent : PyDict :=
  [("summary", .str "Focus"), ("transparency", .str "transparent"),
   ("status", .str "confirmed")]

def exDeclined : PyDict :=
  [("summary", .str "Optional"),
   ("start", .dict [("dateTime", .str "2019-02-21T12:30:00-03:00")]),
   ("end", .dict [("dateTime", .str "2019-02-21T13:00:00-03:00")]),
   ("status", .str "confirmed"),
   ("attendees", .list [.dict [("self", .bool true), ("responseStatus", .str "declined")]])]

def exPrivate : PyDict :=
  [("summary", .str "Secret"),
   ("start", .dict [("dateTime", .str "2019-02-21T10:30:00-03:00")]),
   ("end", .dict [("dateTime", .str "2019-02-21T11:00:00-03:00")]),
   ("status", .str "confirmed"),
   ("visibility", .str "private"),
   ("attendees", .list [.dict [("self", .bool true), ("responseStatus", .str "accepted")]])]

/-- The cleaned record of `exPrivate`. -/
def exPrivateClean : PyDict :=
  [("summary", .str "busy"),
   ("start", .str "2019-02-21T10:30:00-03:00"),
   ("end", .str "2019-02-21T11:00:00-03:00"),
   ("status", .str "confirmed"),
   ("transparency", .str ""),
   ("visibility", .str "private"),
   ("responseStatus", .str "accepted")]

/-- The cleaned record of `exEvent`. -/
def exEventClean : PyDict :=
  [("summary", .str "Team Sync"),
   ("start", .str "2019-02-21T10:30:00-03:00"),
   ("end", .str "2019-02-21T11:00:00-03:00"),
   ("status", .str "confirmed"),
   ("transparency", .str ""),
   ("visibility", .str "public"),
   ("responseStatus", .str "accepted")]

/-- No attendee record with a truthy `self` flag, in the sense of claim C6:
either the event has no `attendees` key at all (so the extracted field
defaults to the empty string), or its attendee dictionaries all have
falsy/absent `self`. -/
def noSelfAttendee (ee : PyDict) : Bool :=
  match dictGetD ee "attendees" (.str "") with
  | .str s => s == ""
  | .list l => l.all isDictVal && (selfResponsesSpec l).isEmpty
  | _ => false

def exNoSelf : PyDict :=
  [("summary", .str "Other teams meeting"),
   ("start", .dict [("dateTime", .str "2019-02-21T10:30:00-03:00")]),
   ("end", .dict [("dateTime", .str "2019-02-21T11:00:00-03:00")]),
   ("status", .str "confirmed"),
   ("attendees", .list [.dict [("responseStatus", .str "accepted")]])]

def exAllDay : PyDict :=
  [("summary", .str "Holiday"),
   ("start", .dict [("date", .str "2019-02-21")]),
   ("end", .dict [("dateTime", .str "2019-02-21T11:00:00-03:00")]),
   ("status", .str "confirmed"),
   ("attendees", .list [.dict [("self", .bool true), ("responseStatus", .str "accepted")]])]

/-- The cleaned record of `exAllDay`: its `start` is the empty string. -/
def exAllDayClean : PyDict :=
  [("summary", .str "Holiday"),
   ("start", .str ""),
   ("end", .str "2019-02-21T11:00:00-03:00"),
   ("status", .str "confirmed"),
   ("transparency", .str ""),
   ("visibility", .str ""),
   ("responseStatus", .str "accepted")]

/-! ## Claim C9: totality of `read_value` -/

/-- The key path of a `read_value` key argument. -/
def keyPath : PyKey → List String
  | .s k => [k]
  | .t ks => ks

/-- Every intermediate value traversed along the path is a dictionary
whenever its key is present (the missing-key default `{}` is a dictionary
as well); the final key's value may have any shape. -/
def pathDictsOk : PyVal → List String → Bool
  | .dict _, [] => true
  | .dict _, [_] => true
  | .dict m, k :: k2 :: ks => pathDictsOk (dictGetD m k (.dict [])) (k2 :: ks)
  | _, _ => false

/-- Some key along the path is missing from its dictionary. -/
def pathMissing : PyVal → List String → Bool
  | .dict m, [k] => !(hasKey m k)
  | .dict m, k :: k2 :: ks =>
      !(hasKey m k) || pathMissing (dictGetD m k (.dict [])) (k2 :: ks)
  | _, _ => false

/-! ## Claim C4: timestamp parsing -/

/-- Two-digit zero-padded decimal characters. -/
def pad2 (n : ℕ) : List Char := [Nat.digitChar (n / 10), Nat.digitChar (n % 10)]

/-- Four-digit zero-padded decimal characters. -/
def pad4 (n : ℕ) : List Char :=
  [Nat.digitChar (n / 1000), Nat.digitChar (n / 100 % 10),
   Nat.digitChar (n / 10 % 10), Nat.digitChar (n % 10)]

/-- Six-digit zero-padded decimal characters (microseconds). -/
def pad6 (n : ℕ) : List Char :=
  [Nat.digitChar (n / 100000), Nat.digitChar (n / 10000 % 10),
   Nat.digitChar (n / 1000 % 10), Nat.digitChar (n / 100 % 10),
   Nat.digitChar (n / 10 % 10), Nat.digitChar (n % 10)]

/-- The zero-padded `YYYY-MM-DDTHH:MM:SS` characters. -/
def baseChars (y mo d h mi s : ℕ) : List Char :=
  pad4 y ++ '-' :: pad2 mo ++ '-' :: pad2 d ++ 'T' :: pad2 h ++
    ':' :: pad2 mi ++ ':' :: pad2 s

/-- The zero-padded `YYYY-MM-DDTHH:MM:SS` timestamp string. -/
def baseStamp (y mo d h mi s : ℕ) : String := String.mk (baseChars y mo d h mi s)

/-! ## Theorems -/

/-! ## Helper lemmas -/

theorem pyStrArg_str (s : String) : pyStrArg (.str s) = .ok s := rfl

theorem dictGetItem_ok_ne_nil {d : PyDict} {k : String} {v : PyVal}
    (h : dictGetItem d k = .ok v) : d ≠ [] := by
  intro hd
  subst hd
  simp [dictGetItem] at h

theorem truthy_dict_of_ne_nil {d : PyDict} (h : d ≠ []) :
    (PyVal.dict d).truthy = true := by
  cases d with
  | nil => exact absurd rfl h
  | cons a l => simp [PyVal.truthy]

/-- Evaluation of `is_within_next_event` when the event dictionary has
string `start`/`end` values that parse, and every instant involved is
timezone-aware: the result is the window condition of the source, with
Python's `or`/`and` short-circuiting flattened out. -/
theorem is_within_eval {now sd ed : PyDateTime} {ev : PyDict} {mb : ℚ}
    {ss es : String} {zs ze zn : ℤ}
    (hmb : 0 ≤ mb)
    (hs : dictGetItem ev "start" = .ok (.str ss))
    (hsp : strptime ss = .ok sd)
    (he : dictGetItem ev "end" = .ok (.str es))
    (hep : strptime es = .ok ed)
    (hzs : sd.tz = some zs) (hze : ed.tz = some ze) (hzn : now.tz = some zn) :
    is_within_next_event now ev mb =
      .ok ((decide (((sd.absMicros - now.absMicros : ℤ) : ℚ) / 1000000 ≤ mb * 60)
            || decide (sd.absMicros ≤ now.absMicros))
           && decide (now.absMicros ≤ ed.absMicros)) := by
  have htr : (PyVal.dict ev).truthy = true :=
    truthy_dict_of_ne_nil (dictGetItem_ok_ne_nil hs)
  have hnlt : ¬ mb < 0 := not_lt.mpr hmb
  unfold is_within_next_event
  simp only [hnlt, if_false, htr, if_true, hs, he, hsp, hep, pyStrArg,
    pySubSeconds, pyLe, hzs, hze, hzn, bind, Except.bind, pure, Except.pure]
  push_cast
  by_cases h1 : ((sd.absMicros : ℚ) - (now.absMicros : ℚ)) / 1000000 ≤ mb * 60 <;>
    by_cases h2 : sd.absMicros ≤ now.absMicros <;>
    by_cases h3 : now.absMicros ≤ ed.absMicros <;>
    simp [h1, h2, h3]

/-! ## Evaluation lemmas for `clean_events` -/

theorem pyGetD_dict (d : PyDict) (k : String) (dflt : PyVal) :
    pyGetD (.dict d) k dflt = .ok (dictGetD d k dflt) := rfl

theorem dictGetD_cons_eq (k : String) (v : PyVal) (d : PyDict) (dflt : PyVal) :
    dictGetD ((k, v) :: d) k dflt = v := by
  simp [dictGetD, List.find?_cons]

theorem dictGetD_cons_ne {k k' : String} (v : PyVal) (d : PyDict) (dflt : PyVal)
    (h : (k' == k) = false) :
    dictGetD ((k', v) :: d) k dflt = dictGetD d k dflt := by
  simp [dictGetD, List.find?_cons, h]

theorem readValue_top (ee : PyDict) (k : String) :
    read_value (.dict ee) (.s k) = .ok (dictGetD ee k (.str "")) := rfl

theorem readValue_nested (ee : PyDict) (k k2 : String) :
    read_value (.dict ee) (.t [k, k2]) =
      pyGetD (dictGetD ee k (.dict [])) k2 (.str "") := rfl

theorem buildClean_eval (ee : PyDict) :
    buildClean ee cleanKeys [] =
      match pyGetD (dictGetD ee "start" (.dict [])) "dateTime" (.str ""),
            pyGetD (dictGetD ee "end" (.dict [])) "dateTime" (.str "") with
      | .error e, _ => .error e
      | .ok _, .error e => .error e
      | .ok vs, .ok ve => .ok (builtRecord ee vs ve) := by
  cases hs : pyGetD (dictGetD ee "start" (.dict [])) "dateTime" (.str "") with
  | error e =>
      simp [buildClean, cleanKeys, read_value, readValueT, pyGetD_dict, hs,
        bind, Except.bind]
  | ok vs =>
      cases he : pyGetD (dictGetD ee "end" (.dict [])) "dateTime" (.str "") with
      | error e =>
          simp [buildClean, cleanKeys, read_value, readValueT, pyGetD_dict, hs, he,
            bind, Except.bind]
      | ok ve =>
          simp [buildClean, cleanKeys, read_value, readValueT, pyGetD_dict, hs, he,
            bind, Except.bind, dictSet, hasKey, builtRecord, get_key,
            List.find?_cons, List.find?_nil]

theorem get_my_response_builtRecord (ee : PyDict) (vs ve : PyVal) :
    get_my_response_status (builtRecord ee vs ve) "attendees" "responseStatus" =
      rawSelfResponse ee := by
  simp [get_my_response_status, builtRecord, dictGetItem, rawSelfResponse,
    bind, Except.bind]

/-- Full evaluation of the loop body: the filters, the reads and the record
surgery of `cleanEventStep`, flattened into one expression. -/
theorem cleanEventStep_eq (ee : PyDict) :
    cleanEventStep ee =
      if pyEqStr (dictGetD ee "transparency" (.str "")) "transparent" then
        .ok none
      else
        match dictGetItem ee "status" with
        | .error e => .error e
        | .ok st =>
          if !(pyEqStr st "confirmed") then .ok none
          else
            match pyGetD (dictGetD ee "start" (.dict [])) "dateTime" (.str ""),
                  pyGetD (dictGetD ee "end" (.dict [])) "dateTime" (.str "") with
            | .error e, _ => .error e
            | .ok _, .error e => .error e
            | .ok vs, .ok ve =>
              match rawSelfResponse ee with
              | .error e => .error e
              | .ok ms =>
                if !(pyEqStr ms "accepted") then .ok none
                else .ok (some (keptRecord ee vs ve ms)) := by
  unfold cleanEventStep
  cases htr : pyEqStr (dictGetD ee "transparency" (.str "")) "transparent" with
  | true => simp [htr, pure, Except.pure, bind, Except.bind]
  | false =>
    simp only [htr, Bool.false_eq_true, if_false, if_true, bind, Except.bind,
      pure, Except.pure]
    cases hst : dictGetItem ee "status" with
    | error e => simp
    | ok st =>
      cases hcf : pyEqStr st "confirmed" with
      | false => simp [hcf, pure, Except.pure]
      | true =>
        simp only [hcf, Bool.not_true, Bool.false_eq_true, if_false]
        rw [buildClean_eval]
        cases hs : pyGetD (dictGetD ee "start" (.dict [])) "dateTime" (.str "") with
        | error e => simp
        | ok vs =>
          cases he : pyGetD (dictGetD ee "end" (.dict [])) "dateTime" (.str "") with
          | error e => simp
          | ok ve =>
            simp only [get_my_response_builtRecord]
            cases hms : rawSelfResponse ee with
            | error e => simp
            | ok ms =>
              cases hac : pyEqStr ms "accepted" with
              | false => simp [hac, pure, Except.pure]
              | true =>
                simp only [hac, Bool.not_true, Bool.false_eq_true, if_false,
                  pure, Except.pure]
                simp only [builtRecord, keptRecord, dictSet, dictDel, hasKey,
                  List.find?_cons, List.find?_nil, List.map, List.filter]
                by_cases hpv : pyEqStr (dictGetD ee "visibility" (.str "")) "private" = true <;>
                  simp [hpv, dictGetD_cons_eq, dictGetD_cons_ne]

theorem dictGetItem_of_hasKey {d : PyDict} {k : String}
    (h : hasKey d k = true) :
    dictGetItem d k = .ok (dictGetD d k (.str "")) := by
  unfold dictGetItem dictGetD
  unfold hasKey at h
  cases hf : d.find? (fun e => e.1 == k) with
  | none => rw [hf] at h; simp at h
  | some e => simp [hf]

theorem selfResponses_of_dicts {l : List PyVal}
    (h : l.all isDictVal = true) :
    selfResponses "responseStatus" l = .ok (selfResponsesSpec l) := by
  induction l with
  | nil => rfl
  | cons aa rest ih =>
    rw [List.all_cons, Bool.and_eq_true] at h
    cases aa with
    | dict m =>
      cases ht : (dictGetD m "self" (.bool false)).truthy <;>
        simp [selfResponses, selfResponsesSpec, pyGetD_dict, ht, ih h.2,
          bind, Except.bind]
    | str s => simp [isDictVal] at h
    | bool b => simp [isDictVal] at h
    | list items => simp [isDictVal] at h

theorem rawSelfResponse_of_wf {ee : PyDict} (h : attendeesWF ee = true) :
    rawSelfResponse ee = .ok (specSelfResponse ee) := by
  unfold attendeesWF at h
  unfold rawSelfResponse specSelfResponse
  cases hatt : dictGetD ee "attendees" (.str "") with
  | list l =>
    rw [hatt] at h
    rw [Bool.and_eq_true] at h
    simp only [pyIter, bind, Except.bind, selfResponses_of_dicts h.1]
    cases hr : selfResponsesSpec l with
    | nil => rw [hr] at h; simp at h
    | cons r rs => simp
  | str s => rw [hatt] at h; simp at h
  | bool b => rw [hatt] at h; simp at h
  | dict entries => rw [hatt] at h; simp at h

/-- Under the Raw Event well-formedness, the loop body is exactly the
specification's keep-and-canonicalize step. -/
theorem cleanEventStep_of_wf {ee : PyDict} (h : RawEventWF ee = true) :
    cleanEventStep ee =
      .ok (if specKeep ee then some (specCanonical ee) else none) := by
  rw [cleanEventStep_eq]
  rw [RawEventWF, Bool.and_eq_true] at h
  obtain ⟨hstat, hrest⟩ := h
  cases htr : pyEqStr (dictGetD ee "transparency" (.str "")) "transparent" with
  | true => simp [htr, specKeep, survivesFirstTwo]
  | false =>
    rw [dictGetItem_of_hasKey hstat]
    simp only [htr, Bool.false_eq_true, if_false]
    cases hcf : pyEqStr (dictGetD ee "status" (.str "")) "confirmed" with
    | false => simp [hcf, specKeep, survivesFirstTwo, htr]
    | true =>
      have hsv : survivesFirstTwo ee = true := by
        simp [survivesFirstTwo, htr, hcf]
      rw [hsv] at hrest
      simp only [Bool.not_true, Bool.false_or, Bool.and_eq_true] at hrest
      obtain ⟨⟨hsd, hed⟩, hatt⟩ := hrest
      simp only [hcf, Bool.not_true, Bool.false_eq_true, if_false]
      cases hsv' : dictGetD ee "start" (.dict []) with
      | dict ms =>
        cases hev' : dictGetD ee "end" (.dict []) with
        | dict me =>
          simp only [hsv', hev', pyGetD_dict, rawSelfResponse_of_wf hatt]
          cases hacc : pyEqStr (specSelfResponse ee) "accepted" with
          | false => simp [hacc, specKeep, survivesFirstTwo, htr, hcf]
          | true =>
            simp only [hacc, Bool.not_true, Bool.false_eq_true, if_false]
            have : specKeep ee = true := by simp [specKeep, hsv, hacc]
            rw [this, if_pos rfl]
            simp [keptRecord, specCanonical, specNested, hsv', hev']
        | str s => rw [hev'] at hed; simp [isDictVal] at hed
        | bool b => rw [hev'] at hed; simp [isDictVal] at hed
        | list items => rw [hev'] at hed; simp [isDictVal] at hed
      | str s => rw [hsv'] at hsd; simp [isDictVal] at hsd
      | bool b => rw [hsv'] at hsd; simp [isDictVal] at hsd
      | list items => rw [hsv'] at hsd; simp [isDictVal] at hsd

/-! ## Claims about `is_within_next_event` -/

/-- C1: for a non-empty canonical event whose `start` and `end` strings parse
to timezone-aware instants, a timezone-aware `now` and `minutes_before ≥ 0`,
`is_within_next_event` returns true exactly when
`(start - now in seconds ≤ minutes_before*60 ∨ now ≥ start) ∧ now ≤ end`;
both boundaries are inclusive: `now` exactly `minutes_before*60` seconds
before `start` (with `now ≤ end`) yields true, and `now` exactly equal to
`end` (with the start-side disjunction) yields true. Instants compare
through absolute microseconds since the epoch; seconds are exact rationals. -/
theorem C1_window_condition {now sd ed : PyDateTime} {ev : PyDict} {mb : ℚ}
    {ss es : String} {zs ze zn : ℤ}
    (hmb : 0 ≤ mb)
    (hs : dictGetItem ev "start" = .ok (.str ss)) (hsp : strptime ss = .ok sd)
    (he : dictGetItem ev "end" = .ok (.str es)) (hep : strptime es = .ok ed)
    (hzs : sd.tz = some zs) (hze : ed.tz = some ze) (hzn : now.tz = some zn) :
    (is_within_next_event now ev mb = .ok true ↔
      ((((sd.absMicros : ℚ) - (now.absMicros : ℚ)) / 1000000 ≤ mb * 60 ∨
          sd.absMicros ≤ now.absMicros) ∧ now.absMicros ≤ ed.absMicros))
    ∧ ((now.absMicros : ℚ) = (sd.absMicros : ℚ) - mb * 60 * 1000000 →
        now.absMicros ≤ ed.absMicros →
        is_within_next_event now ev mb = .ok true)
    ∧ (now.absMicros = ed.absMicros →
        ((((sd.absMicros : ℚ) - (now.absMicros : ℚ)) / 1000000 ≤ mb * 60 ∨
          sd.absMicros ≤ now.absMicros)) →
        is_within_next_event now ev mb = .ok true) := by
  have heval := is_within_eval hmb hs hsp he hep hzs hze hzn
  push_cast at heval
  rw [heval]
  refine ⟨?_, ?_, ?_⟩
  · simp [Bool.or_eq_true, Bool.and_eq_true, decide_eq_true_eq]
  · intro hb hend
    have : ((sd.absMicros : ℚ) - (now.absMicros : ℚ)) / 1000000 ≤ mb * 60 := by
      rw [hb]
      ring_nf
      nlinarith [hb]
    simp [this, hend]
  · intro hb hstart
    rcases hstart with h | h <;> simp [h, hb.le]

/-- Witness for C1: the specification's boundary example. Start
`12:00:00-02:00`, end `12:30:00-02:00`, `minutes_before = 15`, and `now`
exactly 15 minutes before the start: the window is active. -/
theorem C1_window_condition_witness :
    is_within_next_event ⟨2019, 1, 1, 11, 45, 0, 0, some (-7200)⟩
      [("start", PyVal.str "2019-01-01T12:00:00-02:00"),
       ("end", PyVal.str "2019-01-01T12:30:00-02:00")] 15 = .ok true := by
  have h := @C1_window_condition
    ⟨2019, 1, 1, 11, 45, 0, 0, some (-7200)⟩
    ⟨2019, 1, 1, 12, 0, 0, 0, some (-7200)⟩
    ⟨2019, 1, 1, 12, 30, 0, 0, some (-7200)⟩
    [("start", PyVal.str "2019-01-01T12:00:00-02:00"),
     ("end", PyVal.str "2019-01-01T12:30:00-02:00")] 15
    "2019-01-01T12:00:00-02:00" "2019-01-01T12:30:00-02:00"
    (-7200) (-7200) (-7200)
    (by norm_num) rfl rfl rfl rfl rfl rfl rfl
  refine h.2.1 ?_ (by decide)
  have e1 : (PyDateTime.mk 2019 1 1 11 45 0 0 (some (-7200))).absMicros
      = 1546350300000000 := by decide
  have e2 : (PyDateTime.mk 2019 1 1 12 0 0 0 (some (-7200))).absMicros
      = 1546351200000000 := by decide
  rw [e1, e2]
  norm_num

/-- C5: for every `now`, every event argument and every negative
`minutes_before`, `is_within_next_event` fails with an error naming the
`minutes_before` parameter, before any other logic (the event is never
inspected, so the conclusion holds for arbitrary event dictionaries). -/
theorem C5_negative_minutes_fails (now : PyDateTime) (ev : PyDict) (mb : ℚ)
    (hmb : mb < 0) :
    is_within_next_event now ev mb =
      .error ("AssertionError: `" ++ "minutes_before" ++
        "` must be a non-negative number.") := by
  unfold is_within_next_event
  simp [hmb, throw, throwThe, MonadExceptOf.throw, Bind.bind, Except.bind]

/-- Witness for C5 at `minutes_before = -1` with a nonsense event. -/
theorem C5_negative_minutes_fails_witness :
    is_within_next_event ⟨2019, 2, 21, 10, 30, 0, 0, some 0⟩
        [("start", .str "oops")] (-1) =
      .error ("AssertionError: `" ++ "minutes_before" ++
        "` must be a non-negative number.") :=
  C5_negative_minutes_fails ⟨2019, 2, 21, 10, 30, 0, 0, some 0⟩
    [("start", .str "oops")] (-1) (by norm_num)

/-- C8: for every `now` and every `minutes_before ≥ 0`,
`is_within_next_event` on an empty event dictionary returns false without
raising (no timestamp is even present to parse). -/
theorem C8_empty_event_false (now : PyDateTime) (mb : ℚ) (hmb : 0 ≤ mb) :
    is_within_next_event now [] mb = .ok false := by
  unfold is_within_next_event
  simp [not_lt.mpr hmb, PyVal.truthy, pure, Except.pure, Bind.bind, Except.bind]

/-- Witness for C8 at a concrete `now` and `minutes_before = 5`. -/
theorem C8_empty_event_false_witness :
    is_within_next_event ⟨2019, 2, 21, 10, 30, 0, 0, some 0⟩ [] 5 = .ok false :=
  C8_empty_event_false ⟨2019, 2, 21, 10, 30, 0, 0, some 0⟩ 5 (by norm_num)

/-- C2: with well-formed raw events (a `status` key, and — whenever the
event survives the busy and confirmation filters — data-model-shaped
`start`/`end` fields and a self-attendee), `clean_events` returns exactly
the canonical records of the events that are not transparent, are exactly
`confirmed`, and whose extracted self response is exactly `accepted`, in
the input order. -/
theorem C2_clean_events_canonical (events : List PyDict)
    (hwf : events.all RawEventWF = true) :
    clean_events events = .ok ((events.filter specKeep).map specCanonical) := by
  induction events with
  | nil => rfl
  | cons ee rest ih =>
    rw [List.all_cons, Bool.and_eq_true] at hwf
    simp only [clean_events, cleanEventStep_of_wf hwf.1, ih hwf.2,
      bind, Except.bind, List.filter_cons]
    cases hk : specKeep ee <;> simp [hk]

/-- Witness for C2: a kept public event, a transparent event and a declined
event; only the first survives, canonicalized. -/
theorem C2_clean_events_canonical_witness :
    ([exEvent, exTransparent, exDeclined].all RawEventWF = true) ∧
    clean_events [exEvent, exTransparent, exDeclined] =
      .ok [[("summary", .str "Team Sync"),
            ("start", .str "2019-02-21T10:30:00-03:00"),
            ("end", .str "2019-02-21T11:00:00-03:00"),
            ("status", .str "confirmed"),
            ("transparency", .str ""),
            ("visibility", .str "public"),
            ("responseStatus", .str "accepted")]] :=
  ⟨rfl, by rw [C2_clean_events_canonical [exEvent, exTransparent, exDeclined] rfl]; rfl⟩

/-- Inversion: a successful, kept loop step pins down the record. -/
theorem cleanEventStep_some_inv {ee c : PyDict}
    (h : cleanEventStep ee = .ok (some c)) :
    ∃ vs ve ms,
      pyGetD (dictGetD ee "start" (.dict [])) "dateTime" (.str "") = .ok vs ∧
      pyGetD (dictGetD ee "end" (.dict [])) "dateTime" (.str "") = .ok ve ∧
      rawSelfResponse ee = .ok ms ∧ pyEqStr ms "accepted" = true ∧
      c = keptRecord ee vs ve ms := by
  rw [cleanEventStep_eq] at h
  cases h1 : pyEqStr (dictGetD ee "transparency" (.str "")) "transparent" with
  | true => rw [h1] at h; simp at h
  | false =>
    rw [h1] at h
    simp only [Bool.false_eq_true, if_false] at h
    cases hst : dictGetItem ee "status" with
    | error e => rw [hst] at h; simp at h
    | ok st =>
      simp only [hst] at h
      cases h2 : pyEqStr st "confirmed" with
      | false => rw [h2] at h; simp at h
      | true =>
        rw [h2] at h
        simp only [Bool.not_true, Bool.false_eq_true, if_false] at h
        cases hs : pyGetD (dictGetD ee "start" (.dict [])) "dateTime" (.str "") with
        | error e => rw [hs] at h; simp at h
        | ok vs =>
          simp only [hs] at h
          cases he : pyGetD (dictGetD ee "end" (.dict [])) "dateTime" (.str "") with
          | error e => rw [he] at h; simp at h
          | ok ve =>
            simp only [he] at h
            cases hms : rawSelfResponse ee with
            | error e => rw [hms] at h; simp at h
            | ok ms =>
              simp only [hms] at h
              cases hac : pyEqStr ms "accepted" with
              | false => rw [hac] at h; simp at h
              | true =>
                rw [hac] at h
                simp only [Bool.not_true, Bool.false_eq_true, if_false,
                  Except.ok.injEq, Option.some.injEq] at h
                exact ⟨vs, ve, ms, rfl, rfl, rfl, hac, h.symm⟩

/-- C3: for every raw event kept by `clean_events` (its loop step returns a
record), `summary` of the output is the configured default-status string
when `visibility` is exactly `private`, and the original summary value
(whatever it is, including the empty string) otherwise. -/
theorem C3_privacy_substitution {ee c : PyDict}
    (h : cleanEventStep ee = .ok (some c)) :
    (pyEqStr (dictGetD ee "visibility" (.str "")) "private" = true →
        dictGetD c "summary" (.str "") = .str DEFAULT_STATUS) ∧
    (pyEqStr (dictGetD ee "visibility" (.str "")) "private" = false →
        dictGetD c "summary" (.str "") = dictGetD ee "summary" (.str "")) := by
  obtain ⟨vs, ve, ms, _, _, _, _, hc⟩ := cleanEventStep_some_inv h
  subst hc
  constructor <;> intro hp <;> simp [keptRecord, dictGetD_cons_eq, hp]

/-- Witness for C3: a kept private event gets the default-status summary. -/
theorem C3_privacy_substitution_witness :
    dictGetD exPrivateClean "summary" (.str "") = .str DEFAULT_STATUS :=
  (C3_privacy_substitution
    (show cleanEventStep exPrivate = .ok (some exPrivateClean) from rfl)).1 rfl

/-- C7: every record output by a normally-returning `clean_events` has
exactly the keys `summary`, `start`, `end`, `status`, `transparency`,
`visibility`, `responseStatus`, in this order — in particular never an
`attendees` key. -/
theorem C7_output_key_set (events : List PyDict) :
    ∀ (res : List PyDict), clean_events events = .ok res → ∀ c ∈ res,
      c.map Prod.fst =
        ["summary", "start", "end", "status", "transparency", "visibility",
         "responseStatus"] := by
  induction events with
  | nil =>
    intro res h c hc
    simp only [clean_events, Except.ok.injEq] at h
    subst h
    simp at hc
  | cons ee rest ih =>
    intro res h c hc
    simp only [clean_events, bind, Except.bind] at h
    cases hstep : cleanEventStep ee with
    | error e => rw [hstep] at h; simp at h
    | ok r =>
      rw [hstep] at h
      cases htail : clean_events rest with
      | error e => rw [htail] at h; simp at h
      | ok tail =>
        rw [htail] at h
        cases r with
        | none =>
          simp only [Except.ok.injEq] at h
          subst h
          exact ih tail htail c hc
        | some c0 =>
          simp only [Except.ok.injEq] at h
          subst h
          rcases List.mem_cons.mp hc with hce | hcm
          · subst hce
            obtain ⟨vs, ve, ms, _, _, _, _, hc0⟩ := cleanEventStep_some_inv hstep
            subst hc0
            simp [keptRecord]
          · exact ih tail htail c hcm

/-- Witness for C7 on a singleton input. -/
theorem C7_output_key_set_witness :
    clean_events [exEvent] = .ok [exEventClean] ∧
    exEventClean.map Prod.fst =
      ["summary", "start", "end", "status", "transparency", "visibility",
       "responseStatus"] :=
  ⟨rfl, C7_output_key_set [exEvent] [exEventClean] rfl exEventClean (by simp)⟩

theorem rawSelfResponse_of_noSelf {ee : PyDict} (h : noSelfAttendee ee = true) :
    rawSelfResponse ee = .error "IndexError: list index out of range" := by
  unfold noSelfAttendee at h
  unfold rawSelfResponse
  cases hatt : dictGetD ee "attendees" (.str "") with
  | str s =>
    rw [hatt] at h
    have : s = "" := by simpa using h
    subst this
    rfl
  | list l =>
    rw [hatt] at h
    rw [Bool.and_eq_true] at h
    simp only [pyIter, bind, Except.bind, selfResponses_of_dicts h.1]
    cases hr : selfResponsesSpec l with
    | nil => simp
    | cons r rs => rw [hr] at h; simp at h
  | bool b => rw [hatt] at h; simp at h
  | dict entries => rw [hatt] at h; simp at h

/-- C6: a raw event that passes the busy and confirmation filters, has
data-model-shaped `start`/`end` fields, but no attendee with a truthy
`self` flag (including events with no attendees at all) makes
`clean_events` fail with the lookup-on-empty `IndexError`, instead of
excluding the event or returning normally. -/
theorem C6_missing_self_attendee (ee : PyDict) (rest : List PyDict) (st : PyVal)
    (h1 : pyEqStr (dictGetD ee "transparency" (.str "")) "transparent" = false)
    (h2 : dictGetItem ee "status" = .ok st)
    (h3 : pyEqStr st "confirmed" = true)
    (h4 : isDictVal (dictGetD ee "start" (.dict [])) = true)
    (h5 : isDictVal (dictGetD ee "end" (.dict [])) = true)
    (h6 : noSelfAttendee ee = true) :
    clean_events (ee :: rest) = .error "IndexError: list index out of range" := by
  have hstep : cleanEventStep ee = .error "IndexError: list index out of range" := by
    rw [cleanEventStep_eq, h1]
    simp only [Bool.false_eq_true, if_false, h2]
    simp only [h3, Bool.not_true, Bool.false_eq_true, if_false]
    cases hsd : dictGetD ee "start" (.dict []) with
    | dict ms =>
      cases hed : dictGetD ee "end" (.dict []) with
      | dict me => simp [pyGetD_dict, rawSelfResponse_of_noSelf h6]
      | str s => rw [hed] at h5; simp [isDictVal] at h5
      | bool b => rw [hed] at h5; simp [isDictVal] at h5
      | list items => rw [hed] at h5; simp [isDictVal] at h5
    | str s => rw [hsd] at h4; simp [isDictVal] at h4
    | bool b => rw [hsd] at h4; simp [isDictVal] at h4
    | list items => rw [hsd] at h4; simp [isDictVal] at h4
  simp [clean_events, hstep, bind, Except.bind]

/-- Witness for C6: a confirmed busy event whose only attendee lacks the
`self` flag crashes the whole cleaning pass. -/
theorem C6_missing_self_attendee_witness :
    clean_events [exNoSelf] = .error "IndexError: list index out of range" :=
  C6_missing_self_attendee exNoSelf [] (.str "confirmed") rfl rfl rfl rfl rfl rfl

/-! ## Claim C10: all-day events -/

theorem dictGetD_of_not_hasKey {d : PyDict} {k : String} (dflt : PyVal)
    (h : hasKey d k = false) : dictGetD d k dflt = dflt := by
  unfold hasKey at h
  unfold dictGetD
  cases hf : d.find? (fun e => e.1 == k) with
  | none => rfl
  | some e => rw [hf] at h; simp at h

/-- When the `start` value of the event dictionary is present but its
string fails to parse, `is_within_next_event` propagates the parse error. -/
theorem is_within_start_parse_error {now : PyDateTime} {ev : PyDict} {mb : ℚ}
    {ss : String} {e : String}
    (hmb : 0 ≤ mb) (hs : dictGetItem ev "start" = .ok (.str ss))
    (hsp : strptime ss = .error e) :
    is_within_next_event now ev mb = .error e := by
  have htr := truthy_dict_of_ne_nil (dictGetItem_ok_ne_nil hs)
  unfold is_within_next_event
  simp [not_lt.mpr hmb, htr, hs, pyStrArg, hsp, bind, Except.bind, pure, Except.pure]

/-- When the `end` string fails to parse, `is_within_next_event` fails with
some error (at `end`, or earlier at `start`). -/
theorem is_within_end_parse_error {now : PyDateTime} {ev : PyDict} {mb : ℚ}
    {sv : PyVal} {es : String} {e : String}
    (hmb : 0 ≤ mb) (hs : dictGetItem ev "start" = .ok sv)
    (he : dictGetItem ev "end" = .ok (.str es))
    (hep : strptime es = .error e) :
    ∃ err, is_within_next_event now ev mb = .error err := by
  have htr := truthy_dict_of_ne_nil (dictGetItem_ok_ne_nil hs)
  unfold is_within_next_event
  cases hsv : pyStrArg sv with
  | error e2 =>
    exact ⟨e2, by simp [not_lt.mpr hmb, htr, hs, hsv, bind, Except.bind, pure, Except.pure]⟩
  | ok ss =>
    cases hsp : strptime ss with
    | error e2 =>
      exact ⟨e2, by simp [not_lt.mpr hmb, htr, hs, hsv, hsp, bind, Except.bind,
        pure, Except.pure]⟩
    | ok sd =>
      exact ⟨e, by simp [not_lt.mpr hmb, htr, hs, hsv, hsp, he, hep, pyStrArg_str,
        bind, Except.bind, pure, Except.pure]⟩

/-- C10: a raw event kept by `clean_events` whose `start` (or `end`) field
lacks the nested `dateTime` key — the date-only shape of all-day events —
yields a canonical record whose `start` (or `end`) is the empty string, and
`is_within_next_event` applied to that non-empty record fails (the empty
string cannot be parsed) instead of returning a boolean. -/
theorem C10_allday_empty_timestamps {ee c : PyDict}
    (h : cleanEventStep ee = .ok (some c)) :
    (∀ m, dictGetD ee "start" (.dict []) = .dict m → hasKey m "dateTime" = false →
        dictGetItem c "start" = .ok (.str "") ∧
        ∀ (now : PyDateTime) (mb : ℚ), 0 ≤ mb →
          ∃ err, is_within_next_event now c mb = .error err) ∧
    (∀ m, dictGetD ee "end" (.dict []) = .dict m → hasKey m "dateTime" = false →
        dictGetItem c "end" = .ok (.str "") ∧
        ∀ (now : PyDateTime) (mb : ℚ), 0 ≤ mb →
          ∃ err, is_within_next_event now c mb = .error err) := by
  obtain ⟨vs, ve, ms, hvs, hve, hms, hac, hc⟩ := cleanEventStep_some_inv h
  subst hc
  constructor
  · intro m hm hk
    rw [hm, pyGetD_dict, dictGetD_of_not_hasKey (.str "") hk] at hvs
    injection hvs with hv
    subst hv
    have hlk : dictGetItem (keptRecord ee (.str "") ve ms) "start" = .ok (.str "") := by
      simp [keptRecord, dictGetItem]
    exact ⟨hlk, fun now mb hmb =>
      ⟨"IndexError: string index out of range",
        is_within_start_parse_error hmb hlk rfl⟩⟩
  · intro m hm hk
    rw [hm, pyGetD_dict, dictGetD_of_not_hasKey (.str "") hk] at hve
    injection hve with hv
    subst hv
    have hlks : dictGetItem (keptRecord ee vs (.str "") ms) "start" = .ok vs := by
      simp [keptRecord, dictGetItem]
    have hlke : dictGetItem (keptRecord ee vs (.str "") ms) "end" = .ok (.str "") := by
      simp [keptRecord, dictGetItem]
    exact ⟨hlke, fun now mb hmb =>
      is_within_end_parse_error hmb hlks hlke rfl⟩

/-- Witness for C10: an all-day event (date-only `start`) is kept with an
empty `start` string and then crashes the window evaluation. -/
theorem C10_allday_empty_timestamps_witness :
    dictGetItem exAllDayClean "start" = .ok (.str "") ∧
    ∃ err, is_within_next_event ⟨2019, 2, 21, 10, 0, 0, 0, some 0⟩
        exAllDayClean 5 = .error err := by
  have h := C10_allday_empty_timestamps
    (show cleanEventStep exAllDay = .ok (some exAllDayClean) from rfl)
  have h2 := h.1 [("date", PyVal.str "2019-02-21")] rfl rfl
  exact ⟨h2.1, h2.2 ⟨2019, 2, 21, 10, 0, 0, 0, some 0⟩ 5 (by norm_num)⟩

theorem pathMissing_nil_dict (k2 : String) (ks : List String) :
    pathMissing (.dict []) (k2 :: ks) = true := by
  cases ks <;> simp [pathMissing, hasKey]

/-- Totality of the tuple traversal under the dictionary-shape condition. -/
theorem readValueT_total {ks : List String} :
    ∀ {v : PyVal}, ks ≠ [] → pathDictsOk v ks = true →
      (∃ u, readValueT v ks = .ok u) ∧
      (pathMissing v ks = true → readValueT v ks = .ok (.str "")) := by
  induction ks with
  | nil => intro v h _; exact absurd rfl h
  | cons k rest ih =>
    intro v _ hok
    cases v with
    | dict m =>
      cases rest with
      | nil =>
        refine ⟨⟨dictGetD m k (.str ""), rfl⟩, fun hm => ?_⟩
        simp only [pathMissing] at hm
        show pyGetD (.dict m) k (.str "") = .ok (.str "")
        rw [pyGetD_dict, dictGetD_of_not_hasKey (.str "") (by simpa using hm)]
      | cons k2 ks2 =>
        simp only [pathDictsOk] at hok
        have hne : k2 :: ks2 ≠ [] := by simp
        have hrec := ih hne hok
        refine ⟨?_, fun hm => ?_⟩
        · obtain ⟨u, hu⟩ := hrec.1
          exact ⟨u, by simpa [readValueT, pyGetD_dict, bind, Except.bind] using hu⟩
        · simp only [pathMissing, Bool.or_eq_true] at hm
          have hmiss : pathMissing (dictGetD m k (.dict [])) (k2 :: ks2) = true := by
            rcases hm with hm | hm
            · rw [dictGetD_of_not_hasKey (.dict []) (by simpa using hm)]
              exact pathMissing_nil_dict k2 ks2
            · exact hm
          have := hrec.2 hmiss
          simpa [readValueT, pyGetD_dict, bind, Except.bind] using this
    | str s => simp [pathDictsOk] at hok
    | bool b => simp [pathDictsOk] at hok
    | list items =>
      cases rest <;> simp [pathDictsOk] at hok

/-- Counterexample to C9 as stated: on the dictionary `{'a': 'x'}` and the
key path `('a', 'b')`, the intermediate key `a` is present but maps to a
string, and `read_value` raises an `AttributeError`-equivalent instead of
returning normally. -/
theorem C9_read_value_counterexample :
    read_value (.dict [("a", PyVal.str "x")]) (.t ["a", "b"]) =
      .error "AttributeError: object has no attribute get" := rfl

/-- C9 (amended): for every dictionary and every key path — a string, or a
non-empty tuple of strings along which every present intermediate value is
itself a dictionary — `read_value` returns normally, and it returns the
empty string whenever any intermediate or final key is missing. -/
theorem C9_read_value_total (d : PyDict) (key : PyKey)
    (hne : keyPath key ≠ [])
    (hok : pathDictsOk (.dict d) (keyPath key) = true) :
    (∃ u, read_value (.dict d) key = .ok u) ∧
    (pathMissing (.dict d) (keyPath key) = true →
        read_value (.dict d) key = .ok (.str "")) := by
  cases key with
  | s k => exact readValueT_total (by simp) (by simpa [keyPath] using hok)
  | t ks => exact readValueT_total (by simpa [keyPath] using hne) (by simpa [keyPath] using hok)

/-- Witness for the amended C9: a two-level path whose final key is absent
returns the empty string. -/
theorem C9_read_value_total_witness :
    (∃ u, read_value (.dict [("start", PyVal.dict [("date", PyVal.str "2019-02-21")])])
        (.t ["start", "dateTime"]) = .ok u) ∧
    read_value (.dict [("start", PyVal.dict [("date", PyVal.str "2019-02-21")])])
        (.t ["start", "dateTime"]) = .ok (.str "") := by
  have h := C9_read_value_total [("start", PyVal.dict [("date", PyVal.str "2019-02-21")])]
    (.t ["start", "dateTime"]) (by simp [keyPath]) rfl
  exact ⟨h.1, h.2 rfl⟩

theorem data_mk (l : List Char) : (String.mk l).data = l := rfl

theorem charDigit_digitChar {n : ℕ} (h : n < 10) :
    charDigit (Nat.digitChar n) = some n := by
  interval_cases n <;> rfl

theorem digitChar_isDigit {n : ℕ} (h : n < 10) :
    (Nat.digitChar n).isDigit = true := by
  interval_cases n <;> rfl

theorem digitChar_ne_Z {n : ℕ} (h : n < 10) :
    (Nat.digitChar n == 'Z') = false := by
  interval_cases n <;> rfl

theorem digitChar_ne_colon {n : ℕ} (h : n < 10) :
    (Nat.digitChar n == ':') = false := by
  interval_cases n <;> rfl

theorem digits2_pad2 {n : ℕ} (h : n < 100) :
    digits2 (Nat.digitChar (n / 10)) (Nat.digitChar (n % 10)) = some n := by
  have h1 : n / 10 < 10 := by omega
  have h2 : n % 10 < 10 := by omega
  simp [digits2, charDigit_digitChar h1, charDigit_digitChar h2]
  omega

theorem digits4_pad4 {n : ℕ} (h : n < 10000) :
    digits4 (Nat.digitChar (n / 1000)) (Nat.digitChar (n / 100 % 10))
      (Nat.digitChar (n / 10 % 10)) (Nat.digitChar (n % 10)) = some n := by
  have e1 : n / 1000 = n / 100 / 10 := by
    rw [Nat.div_div_eq_div_mul]
  have e3 : n / 10 % 10 = n % 100 / 10 := by omega
  have e4 : n % 10 = n % 100 % 10 := by omega
  rw [e1, e3, e4]
  have h1 : n / 100 < 100 := by omega
  have h2 : n % 100 < 100 := by omega
  simp [digits4, digits2_pad2 h1, digits2_pad2 h2]
  omega

theorem takeDigits_pad6 {us : ℕ} (h : us < 1000000) (rest : List Char) :
    takeDigits 6 (pad6 us ++ rest) =
      ([us / 100000, us / 10000 % 10, us / 1000 % 10, us / 100 % 10,
        us / 10 % 10, us % 10], rest) := by
  have h1 : us / 100000 < 10 := by omega
  have h2 : us / 10000 % 10 < 10 := by omega
  have h3 : us / 1000 % 10 < 10 := by omega
  have h4 : us / 100 % 10 < 10 := by omega
  have h5 : us / 10 % 10 < 10 := by omega
  have h6 : us % 10 < 10 := by omega
  simp [takeDigits, pad6, charDigit_digitChar, h1, h2, h3, h4, h5, h6]

theorem fracValue_pad6_digits {us : ℕ} (h : us < 1000000) :
    fracValue [us / 100000, us / 10000 % 10, us / 1000 % 10, us / 100 % 10,
      us / 10 % 10, us % 10] = us := by
  simp only [fracValue, List.foldl, List.length]
  norm_num
  omega

theorem daysInMonth_le (y : ℤ) (m : ℕ) : daysInMonth y m ≤ 31 := by
  unfold daysInMonth
  split_ifs <;> norm_num

/-- `strptime` on the naive `YYYY-MM-DDTHH:MM:SS` shape: a naive datetime
(no timezone attached). -/
theorem strptime_naive (y mo d h mi s : ℕ)
    (hy1 : 1 ≤ y) (hy2 : y ≤ 9999) (hmo1 : 1 ≤ mo) (hmo2 : mo ≤ 12)
    (hd1 : 1 ≤ d) (hd2 : d ≤ daysInMonth (y : ℤ) mo)
    (hh : h ≤ 23) (hmi : mi ≤ 59) (hsx : s ≤ 59) :
    strptime (baseStamp y mo d h mi s) = .ok ⟨(y : ℤ), mo, d, h, mi, s, 0, none⟩ := by
  have hd31 : d < 100 := by
    have := daysInMonth_le (y : ℤ) mo
    omega
  have hv : validDate y mo d h mi s = true := by
    simp [validDate, hy1, hy2, hmo1, hmo2, hd1, hd2, hh, hmi, hsx]
  simp [strptime, baseStamp, data_mk, baseChars, pad4, pad2, parseCore, parseFrac,
    parseTz, lastN, offsetSuffixMatch, hv, List.getLast?_cons_cons,
    digits4_pad4 (show y < 10000 by omega),
    digits2_pad2 (show mo < 100 by omega),
    digits2_pad2 hd31,
    digits2_pad2 (show h < 100 by omega),
    digits2_pad2 (show mi < 100 by omega),
    digits2_pad2 (show s < 100 by omega),
    digitChar_ne_Z (show s % 10 < 10 by omega)]

theorem digitChar_ne_plus {n : ℕ} (h : n < 10) :
    (Nat.digitChar n == '+') = false := by
  interval_cases n <;> rfl

theorem digitChar_ne_minus {n : ℕ} (h : n < 10) :
    (Nat.digitChar n == '-') = false := by
  interval_cases n <;> rfl

/-- `strptime` on the `...Z` shape: the wall-clock fields with UTC attached. -/
theorem strptime_utc (y mo d h mi s : ℕ)
    (hy1 : 1 ≤ y) (hy2 : y ≤ 9999) (hmo1 : 1 ≤ mo) (hmo2 : mo ≤ 12)
    (hd1 : 1 ≤ d) (hd2 : d ≤ daysInMonth (y : ℤ) mo)
    (hh : h ≤ 23) (hmi : mi ≤ 59) (hsx : s ≤ 59) :
    strptime (String.mk (baseChars y mo d h mi s ++ ['Z'])) =
      .ok ⟨(y : ℤ), mo, d, h, mi, s, 0, some 0⟩ := by
  have hv : validDate y mo d h mi s = true := by
    simp [validDate, hy1, hy2, hmo1, hmo2, hd1, hd2, hh, hmi, hsx]
  have hd31 : d < 100 := by
    have := daysInMonth_le (y : ℤ) mo
    omega
  simp [strptime, data_mk, baseChars, pad4, pad2, parseCore, parseFrac,
    parseTz, hv,
    digits4_pad4 (show y < 10000 by omega),
    digits2_pad2 (show mo < 100 by omega),
    digits2_pad2 hd31,
    digits2_pad2 (show h < 100 by omega),
    digits2_pad2 (show mi < 100 by omega),
    digits2_pad2 (show s < 100 by omega)]

/-- `strptime` on the `...±HH:MM` shape: the wall-clock fields with the
fixed offset (in signed seconds) attached; the colon of the suffix is
stripped before the low-level parse. -/
theorem strptime_offset (y mo d h mi s oh om : ℕ)
    (hy1 : 1 ≤ y) (hy2 : y ≤ 9999) (hmo1 : 1 ≤ mo) (hmo2 : mo ≤ 12)
    (hd1 : 1 ≤ d) (hd2 : d ≤ daysInMonth (y : ℤ) mo)
    (hh : h ≤ 23) (hmi : mi ≤ 59) (hsx : s ≤ 59)
    (hoh : oh ≤ 23) (hom : om ≤ 59) :
    strptime (String.mk (baseChars y mo d h mi s ++ '+' :: pad2 oh ++ ':' :: pad2 om)) =
      .ok ⟨(y : ℤ), mo, d, h, mi, s, 0, some ((oh : ℤ) * 3600 + (om : ℤ) * 60)⟩ ∧
    strptime (String.mk (baseChars y mo d h mi s ++ '-' :: pad2 oh ++ ':' :: pad2 om)) =
      .ok ⟨(y : ℤ), mo, d, h, mi, s, 0, some (-((oh : ℤ) * 3600 + (om : ℤ) * 60))⟩ := by
  have hv : validDate y mo d h mi s = true := by
    simp [validDate, hy1, hy2, hmo1, hmo2, hd1, hd2, hh, hmi, hsx]
  have hd31 : d < 100 := by
    have := daysInMonth_le (y : ℤ) mo
    omega
  have hlt : oh * 3600 + om * 60 < 86400 := by omega
  constructor <;>
  simp [strptime, data_mk, baseChars, pad4, pad2, parseCore, parseFrac,
    parseTz, offsetSuffixMatch, lastN, hv, hlt,
    digits4_pad4 (show y < 10000 by omega),
    digits2_pad2 (show mo < 100 by omega),
    digits2_pad2 hd31,
    digits2_pad2 (show h < 100 by omega),
    digits2_pad2 (show mi < 100 by omega),
    digits2_pad2 (show s < 100 by omega),
    digits2_pad2 (show oh < 100 by omega),
    digits2_pad2 (show om < 100 by omega),
    digitChar_ne_Z (show om % 10 < 10 by omega),
    digitChar_isDigit (show oh / 10 < 10 by omega),
    digitChar_isDigit (show oh % 10 < 10 by omega),
    digitChar_isDigit (show om / 10 < 10 by omega),
    digitChar_isDigit (show om % 10 < 10 by omega),
    digitChar_ne_colon (show oh / 10 < 10 by omega),
    digitChar_ne_colon (show oh % 10 < 10 by omega),
    digitChar_ne_colon (show om / 10 < 10 by omega),
    digitChar_ne_colon (show om % 10 < 10 by omega)]

theorem takeDigits_digits {a b c d e f : ℕ} (rest : List Char)
    (h1 : a < 10) (h2 : b < 10) (h3 : c < 10) (h4 : d < 10)
    (h5 : e < 10) (h6 : f < 10) :
    takeDigits 6 (Nat.digitChar a :: Nat.digitChar b :: Nat.digitChar c ::
      Nat.digitChar d :: Nat.digitChar e :: Nat.digitChar f :: rest) =
      ([a, b, c, d, e, f], rest) := by
  simp [takeDigits, charDigit_digitChar, h1, h2, h3, h4, h5, h6]

/-- `strptime` with fractional seconds: the `.` at character index 19
triggers `%f` parsing in each of the three shapes (naive, `Z`, offset). -/
theorem strptime_frac (y mo d h mi s us : ℕ)
    (hy1 : 1 ≤ y) (hy2 : y ≤ 9999) (hmo1 : 1 ≤ mo) (hmo2 : mo ≤ 12)
    (hd1 : 1 ≤ d) (hd2 : d ≤ daysInMonth (y : ℤ) mo)
    (hh : h ≤ 23) (hmi : mi ≤ 59) (hsx : s ≤ 59) (hus : us < 1000000) :
    strptime (String.mk (baseChars y mo d h mi s ++ '.' :: pad6 us)) =
      .ok ⟨(y : ℤ), mo, d, h, mi, s, us, none⟩ ∧
    strptime (String.mk (baseChars y mo d h mi s ++ '.' :: pad6 us ++ ['Z'])) =
      .ok ⟨(y : ℤ), mo, d, h, mi, s, us, some 0⟩ ∧
    (∀ oh om, oh ≤ 23 → om ≤ 59 →
      strptime (String.mk (baseChars y mo d h mi s ++ '.' :: pad6 us ++
          '+' :: pad2 oh ++ ':' :: pad2 om)) =
        .ok ⟨(y : ℤ), mo, d, h, mi, s, us, some ((oh : ℤ) * 3600 + (om : ℤ) * 60)⟩) := by
  have hv : validDate y mo d h mi s = true := by
    simp [validDate, hy1, hy2, hmo1, hmo2, hd1, hd2, hh, hmi, hsx]
  have hd31 : d < 100 := by
    have := daysInMonth_le (y : ℤ) mo
    omega
  have hb1 : us / 100000 < 10 := by omega
  have hb2 : us / 10000 % 10 < 10 := by omega
  have hb3 : us / 1000 % 10 < 10 := by omega
  have hb4 : us / 100 % 10 < 10 := by omega
  have hb5 : us / 10 % 10 < 10 := by omega
  have hb6 : us % 10 < 10 := by omega
  refine ⟨?_, ?_, ?_⟩
  · simp [strptime, data_mk, baseChars, pad4, pad2, pad6, parseCore, parseFrac,
      parseTz, offsetSuffixMatch, lastN, hv,
      takeDigits_digits [] hb1 hb2 hb3 hb4 hb5 hb6, fracValue_pad6_digits hus,
      digits4_pad4 (show y < 10000 by omega),
      digits2_pad2 (show mo < 100 by omega),
      digits2_pad2 hd31,
      digits2_pad2 (show h < 100 by omega),
      digits2_pad2 (show mi < 100 by omega),
      digits2_pad2 (show s < 100 by omega),
      digitChar_ne_Z hb6, digitChar_ne_plus hb1, digitChar_ne_minus hb1]
  · simp [strptime, data_mk, baseChars, pad4, pad2, pad6, parseCore, parseFrac,
      parseTz, hv,
      takeDigits_digits ['Z'] hb1 hb2 hb3 hb4 hb5 hb6, fracValue_pad6_digits hus,
      digits4_pad4 (show y < 10000 by omega),
      digits2_pad2 (show mo < 100 by omega),
      digits2_pad2 hd31,
      digits2_pad2 (show h < 100 by omega),
      digits2_pad2 (show mi < 100 by omega),
      digits2_pad2 (show s < 100 by omega)]
  · intro oh om hoh hom
    have hlt : oh * 3600 + om * 60 < 86400 := by omega
    simp [strptime, data_mk, baseChars, pad4, pad2, pad6, parseCore, parseFrac,
      parseTz, offsetSuffixMatch, lastN, hv, hlt,
      takeDigits_digits ('+' :: Nat.digitChar (oh / 10) :: Nat.digitChar (oh % 10) ::
        Nat.digitChar (om / 10) :: Nat.digitChar (om % 10) :: [])
        hb1 hb2 hb3 hb4 hb5 hb6,
      fracValue_pad6_digits hus,
      digits4_pad4 (show y < 10000 by omega),
      digits2_pad2 (show mo < 100 by omega),
      digits2_pad2 hd31,
      digits2_pad2 (show h < 100 by omega),
      digits2_pad2 (show mi < 100 by omega),
      digits2_pad2 (show s < 100 by omega),
      digits2_pad2 (show oh < 100 by omega),
      digits2_pad2 (show om < 100 by omega),
      digitChar_ne_Z (show om % 10 < 10 by omega),
      digitChar_isDigit (show oh / 10 < 10 by omega),
      digitChar_isDigit (show oh % 10 < 10 by omega),
      digitChar_isDigit (show om / 10 < 10 by omega),
      digitChar_isDigit (show om % 10 < 10 by omega),
      digitChar_ne_colon (show oh / 10 < 10 by omega),
      digitChar_ne_colon (show oh % 10 < 10 by omega),
      digitChar_ne_colon (show om / 10 < 10 by omega),
      digitChar_ne_colon (show om % 10 < 10 by omega)]

/-- C4: `strptime` maps each of the three input shapes to the correct
instant, over all in-range zero-padded field values: the `Z`-suffixed shape
parses to that wall-clock time carrying UTC (`tz = some 0`); the
`±HH:MM`-suffixed shape parses to that wall-clock time with the fixed
offset attached (`tz = some` of the signed offset in seconds), so
`2001-02-03T04:05:06-03:00` denotes the same absolute instant as
`2001-02-03T07:05:06Z`; the bare shape parses to a naive datetime
(`tz = none`); and a `.` at character index 19 triggers fractional-second
parsing in each shape. -/
theorem C4_strptime_shapes (y mo d h mi s : ℕ)
    (hy1 : 1 ≤ y) (hy2 : y ≤ 9999) (hmo1 : 1 ≤ mo) (hmo2 : mo ≤ 12)
    (hd1 : 1 ≤ d) (hd2 : d ≤ daysInMonth (y : ℤ) mo)
    (hh : h ≤ 23) (hmi : mi ≤ 59) (hsx : s ≤ 59) :
    strptime (baseStamp y mo d h mi s) = .ok ⟨(y : ℤ), mo, d, h, mi, s, 0, none⟩
    ∧ strptime (String.mk (baseChars y mo d h mi s ++ ['Z'])) =
        .ok ⟨(y : ℤ), mo, d, h, mi, s, 0, some 0⟩
    ∧ (∀ oh om, oh ≤ 23 → om ≤ 59 →
        strptime (String.mk (baseChars y mo d h mi s ++ '+' :: pad2 oh ++ ':' :: pad2 om)) =
          .ok ⟨(y : ℤ), mo, d, h, mi, s, 0, some ((oh : ℤ) * 3600 + (om : ℤ) * 60)⟩
        ∧ strptime (String.mk (baseChars y mo d h mi s ++ '-' :: pad2 oh ++ ':' :: pad2 om)) =
          .ok ⟨(y : ℤ), mo, d, h, mi, s, 0, some (-((oh : ℤ) * 3600 + (om : ℤ) * 60))⟩)
    ∧ (∀ us, us < 1000000 →
        strptime (String.mk (baseChars y mo d h mi s ++ '.' :: pad6 us)) =
          .ok ⟨(y : ℤ), mo, d, h, mi, s, us, none⟩
        ∧ strptime (String.mk (baseChars y mo d h mi s ++ '.' :: pad6 us ++ ['Z'])) =
          .ok ⟨(y : ℤ), mo, d, h, mi, s, us, some 0⟩
        ∧ (∀ oh om, oh ≤ 23 → om ≤ 59 →
            strptime (String.mk (baseChars y mo d h mi s ++ '.' :: pad6 us ++
                '+' :: pad2 oh ++ ':' :: pad2 om)) =
              .ok ⟨(y : ℤ), mo, d, h, mi, s, us, some ((oh : ℤ) * 3600 + (om : ℤ) * 60)⟩))
    ∧ strptime "2001-02-03T04:05:06Z" = .ok ⟨2001, 2, 3, 4, 5, 6, 0, some 0⟩
    ∧ strptime "2001-02-03T04:05:06-03:00" = .ok ⟨2001, 2, 3, 4, 5, 6, 0, some (-10800)⟩
    ∧ strptime "2001-02-03T07:05:06Z" = .ok ⟨2001, 2, 3, 7, 5, 6, 0, some 0⟩
    ∧ (⟨2001, 2, 3, 4, 5, 6, 0, some (-10800)⟩ : PyDateTime).absMicros =
        (⟨2001, 2, 3, 7, 5, 6, 0, some 0⟩ : PyDateTime).absMicros :=
  ⟨strptime_naive y mo d h mi s hy1 hy2 hmo1 hmo2 hd1 hd2 hh hmi hsx,
   strptime_utc y mo d h mi s hy1 hy2 hmo1 hmo2 hd1 hd2 hh hmi hsx,
   fun oh om hoh hom =>
     strptime_offset y mo d h mi s oh om hy1 hy2 hmo1 hmo2 hd1 hd2 hh hmi hsx hoh hom,
   fun us hus =>
     strptime_frac y mo d h mi s us hy1 hy2 hmo1 hmo2 hd1 hd2 hh hmi hsx hus,
   rfl, rfl, rfl, by decide⟩

/-- Witness for C4 at the specification's example date `2001-02-03` and at
`04:05:06`. -/
theorem C4_strptime_shapes_witness :
    strptime (baseStamp 2001 2 3 4 5 6) = .ok ⟨2001, 2, 3, 4, 5, 6, 0, none⟩ ∧
    strptime (String.mk (baseChars 2001 2 3 4 5 6 ++ ['Z'])) =
      .ok ⟨2001, 2, 3, 4, 5, 6, 0, some 0⟩ := by
  have h := C4_strptime_shapes 2001 2 3 4 5 6 (by norm_num) (by norm_num)
    (by norm_num) (by norm_num) (by norm_num) (by decide)
    (by norm_num) (by norm_num) (by norm_num)
  exact ⟨h.1, h.2.1⟩

end GCal

